import Mathlib

/-!
# Verification of the interactive gallery engine (website-andi)

Shallow embedding of the client page component: masonry row-span
computation, scroll-progress tracker, lightbox controller, slug
generation, the hover-expand handlers and the forward-scroll lock.
Every definition is translated from the page source; JavaScript
numbers are modelled as rationals, with an explicit `JsNum` type where
NaN/Infinity behaviour matters (the unguarded division in the scroll
handler).
-/

namespace WebsiteAndi

/-! ## JavaScript number model for the scroll-progress tracker

`handleScroll` computes `scrolled / documentHeight` with no guard on a
zero denominator, then clamps with `Math.min(Math.max(·, 0), 1)`.  In
JavaScript `0/0 = NaN`, `x/0 = ±Infinity` for `x ≠ 0`, and `Math.max` /
`Math.min` return NaN whenever an argument is NaN.  `JsNum` models
exactly these non-finite values. -/

inductive JsNum where
  | num : ℚ → JsNum
  | nan : JsNum
  | inf : JsNum
  | negInf : JsNum
  deriving DecidableEq, Repr

/-- JavaScript division `a / b` on finite operands: `0/0 = NaN`,
`a/0 = ±Infinity` for `a ≠ 0`, ordinary division otherwise. -/
def jsDiv (a b : ℚ) : JsNum :=
  if b = 0 then
    if a = 0 then JsNum.nan
    else if 0 < a then JsNum.inf
    else JsNum.negInf
  else JsNum.num (a / b)

/-- `Math.max(x, c)` for a finite second argument: NaN absorbs. -/
def jsMax (x : JsNum) (c : ℚ) : JsNum :=
  match x with
  | JsNum.num a => JsNum.num (max a c)
  | JsNum.nan => JsNum.nan
  | JsNum.inf => JsNum.inf
  | JsNum.negInf => JsNum.num c

/-- `Math.min(x, c)` for a finite second argument: NaN absorbs. -/
def jsMin (x : JsNum) (c : ℚ) : JsNum :=
  match x with
  | JsNum.num a => JsNum.num (min a c)
  | JsNum.nan => JsNum.nan
  | JsNum.inf => JsNum.num c
  | JsNum.negInf => JsNum.negInf

/-- The body of `handleScroll`: `documentHeight` is
`document.documentElement.scrollHeight - window.innerHeight` (passed in
already subtracted), `scrolled` is `window.scrollY`;
`progress = scrolled / documentHeight` then
`Math.min(Math.max(progress, 0), 1)`. -/
def handleScroll (scrolled documentHeight : ℚ) : JsNum :=
  jsMin (jsMax (jsDiv scrolled documentHeight) 0) 1

/-! ## Masonry row-span computation -/

/-- The two computed-style reads of a grid, as `parseFloat` results:
`none` models NaN (property missing/unparsable). -/
structure GridStyles where
  gridAutoRows : Option ℚ
  rowGapVal : Option ℚ
  deriving DecidableEq, Repr

/-- JavaScript `parseFloat(...) || d`: NaN and 0 are falsy, so both fall
back to the default `d`. -/
def jsOrDefault (v : Option ℚ) (d : ℚ) : ℚ :=
  match v with
  | none => d
  | some x => if x = 0 then d else x

/-- `getRowMetrics`: `rowHeight = parseFloat(grid-auto-rows) || 8`,
`rowGap = parseFloat(row-gap) || 16`. -/
def getRowMetrics (g : GridStyles) : ℚ × ℚ :=
  (jsOrDefault g.gridAutoRows 8, jsOrDefault g.rowGapVal 16)

/-- Measurements of a masonry item: the rendered height of
`item.querySelector('img')` when an `img` exists (`none` otherwise),
and the height of the item container itself. -/
structure ItemMeasure where
  imgHeight : Option ℚ
  selfHeight : ℚ
  deriving DecidableEq, Repr

/-- `const content = item.querySelector('img') || item;
content.getBoundingClientRect().height`. -/
def contentHeight (m : ItemMeasure) : ℚ :=
  m.imgHeight.getD m.selfHeight

/-- `computeSpan(item, grid)`:
`Math.max(1, Math.ceil((height + rowGap) / (rowHeight + rowGap)))`.
CSS lengths are non-negative and zero metrics fall back to the 8/16
defaults, so the denominator is positive in every reachable call. -/
def computeSpan (item : ItemMeasure) (grid : GridStyles) : ℤ :=
  let m := getRowMetrics grid
  max 1 ⌈(contentHeight item + m.2) / (m.1 + m.2)⌉

/-! ## Lightbox controller -/

/-- An image descriptor of a post (`{src, alt}`). -/
structure GalleryImage where
  src : String
  alt : String
  deriving DecidableEq, Repr

/-- The fields of `BlogPostData` the lightbox reads: `images` is
optional in the feed schema. -/
structure BlogPostData where
  title : String
  images : Option (List GalleryImage)
  deriving DecidableEq, Repr

/-- `LightboxState` as in the source. -/
structure LightboxState where
  isOpen : Bool
  currentImageIndex : ℕ
  postIndex : ℕ
  deriving DecidableEq, Repr

/-- `openLightbox(postIndex, imageIndex)` (the body-scroll side effect
is outside the state). -/
def openLightbox (postIndex imageIndex : ℕ) : LightboxState :=
  { isOpen := true, currentImageIndex := imageIndex, postIndex := postIndex }

/-- `closeLightbox()`. -/
def closeLightbox : LightboxState :=
  { isOpen := false, currentImageIndex := 0, postIndex := 0 }

inductive NavDirection where
  | prev
  | next
  deriving DecidableEq, Repr

/-- `navigateLightbox(direction)`: looks up `posts[lightbox.postIndex]`,
returns unchanged when `currentPost?.images` is absent, otherwise
`next` sets `(i + 1) % totalImages` and `prev` sets
`(i - 1 + totalImages) % totalImages` (the subtraction is JavaScript
arithmetic, so it is carried out in ℤ; for `totalImages ≥ 1` the
dividend `i - 1 + totalImages` is non-negative, where JavaScript `%`
agrees with `Int.emod`). -/
def navigateLightbox (posts : List BlogPostData) (direction : NavDirection)
    (s : LightboxState) : LightboxState :=
  match (posts.get? s.postIndex).bind BlogPostData.images with
  | none => s
  | some imgs =>
      let totalImages : ℕ := imgs.length
      let newIndex : ℕ :=
        match direction with
        | NavDirection.next => (s.currentImageIndex + 1) % totalImages
        | NavDirection.prev =>
            (((s.currentImageIndex : ℤ) - 1 + totalImages) % (totalImages : ℤ)).toNat
      { s with currentImageIndex := newIndex }

/-- A click on the gallery image `imgIndex` of post `postIdx`.  The
`onClick={() => openLightbox(index, imgIndex)}` handler only exists for
images the page rendered: the masonry block is guarded by
`post.images && post.images.length > 0` and the handlers are produced
by `post.images.map`, so a post with no images exposes no handler and
clicking it is a no-op on the state. -/
def clickImage (posts : List BlogPostData) (s : LightboxState)
    (postIdx imgIndex : ℕ) : LightboxState :=
  match posts.get? postIdx with
  | none => s
  | some p =>
      match p.images with
      | none => s
      | some imgs =>
          if 0 < imgs.length ∧ imgIndex < imgs.length then
            openLightbox postIdx imgIndex
          else s

/-! ## Slug generation -/

/-- Characters surviving the `[^a-z0-9]` character class. -/
def isSlugChar (c : Char) : Bool :=
  (decide ('a' ≤ c) && decide (c ≤ 'z')) || (decide ('0' ≤ c) && decide (c ≤ '9'))

/-- `.replace(/[^a-z0-9]+/g, '-')`: each maximal run of characters
outside `[a-z0-9]` is replaced by a single hyphen. -/
def collapseRuns : List Char → List Char
  | [] => []
  | c :: rest =>
      if isSlugChar c then c :: collapseRuns rest
      else '-' :: collapseRuns (rest.dropWhile (fun d => !isSlugChar d))
termination_by l => l.length
decreasing_by
  · simp only [List.length_cons]; omega
  · simp only [List.length_cons, List.dropWhile_eq_drop_findIdx_not, List.length_drop]
    omega

/-- Remove one leading hyphen (the `^-` alternative of
`/(^-|-$)/g`, which can match at most once). -/
def stripLeadingHyphen : List Char → List Char
  | [] => []
  | c :: rest => if c = '-' then rest else c :: rest

/-- Remove one trailing hyphen (the `-$` alternative of
`/(^-|-$)/g`, which can match at most once). -/
def stripTrailingHyphen : List Char → List Char
  | [] => []
  | [c] => if c = '-' then [] else [c]
  | c :: c2 :: rest => c :: stripTrailingHyphen (c2 :: rest)

/-- `createSlug(title)`:
`title.toLowerCase().replace(/[^a-z0-9]+/g, '-').replace(/(^-|-$)/g, '')`.
Lowercasing is per-character (`Char.toLower`); any character whose
lowercase form is outside ASCII `[a-z0-9]` is removed by the following
replace, so the divergence between `String.prototype.toLowerCase` and
`Char.toLower` on exotic code points cannot reach the output. -/
def createSlug (title : List Char) : List Char :=
  stripTrailingHyphen (stripLeadingHyphen (collapseRuns (title.map Char.toLower)))

/-- No two adjacent hyphens anywhere in the string. -/
def noDoubleHyphen : List Char → Bool
  | [] => true
  | [_] => true
  | a :: b :: rest => !(a == '-' && b == '-') && noDoubleHyphen (b :: rest)

/-! ## Forward-scroll lock polling (`checkDone`)

`onMouseEnter` engages `isForwardScrollRef` and schedules `checkDone`
on animation frames; each tick compares `window.scrollY` to the target
`y` and `Date.now()` to the recorded `start`. -/

/-- The release condition tested by one `checkDone` tick:
`Math.abs(window.scrollY - y) < 2 || Date.now() - start > 1600`. -/
def checkDoneCond (y scrollY start now : ℤ) : Bool :=
  decide (|scrollY - y| < 2) || decide (now - start > 1600)

/-- Whether the forward-scroll lock is still engaged after `k` polling
ticks, given the trajectory of `window.scrollY` (`scrollAt`) and of
`Date.now()` (`timeAt`) at each tick: the lock is engaged when the
scroll is issued, and tick `k` clears it exactly when `checkDoneCond`
holds there (afterwards `checkDone` stops rescheduling itself). -/
def lockAfter (y start : ℤ) (scrollAt timeAt : ℕ → ℤ) : ℕ → Bool
  | 0 => true
  | k + 1 => lockAfter y start scrollAt timeAt k
      && !(checkDoneCond y (scrollAt k) start (timeAt k))

/-! ## Hover-expand state machine

The `onMouseEnter` / `onMouseLeave` closures mutate per-item inline
styles and classes plus the module-level refs
(`expandedItemRef`, `expandedGridRef`, `originalScrollYRef`,
`isForwardScrollRef`).  Items are identified by a stable key `ℕ`
(the state machine tracks items by key, not object identity).  The
`requestAnimationFrame` continuations of a handler are folded into the
handler's settled step; the asynchronous release of the forward-scroll
lock (`checkDone` reaching its condition, which always happens by the
lock-release theorem) is a separate `unlock` event. -/

/-- The style state a handler mutates on one item:
`style.gridColumn = '1 / -1'` (vs `''`), the
`masonry-item-expanded` class, the `expanded-image` class on its
`img`, and the current `style.gridRowEnd` span value. -/
structure ItemStyle where
  gridColumnFull : Bool
  expandedClass : Bool
  imgExpandedClass : Bool
  rowSpan : ℤ
  deriving DecidableEq, Repr

/-- Measurement environment: which grid each item belongs to, its
measurements in the normal and in the cross-column expanded layout,
and each grid's computed styles. -/
structure HoverEnv where
  gridOf : ℕ → ℕ
  naturalMeasure : ℕ → ItemMeasure
  expandedMeasure : ℕ → ItemMeasure
  styles : ℕ → GridStyles

/-- The item's row span in its normal (unexpanded) layout. -/
def naturalSpan (env : HoverEnv) (i : ℕ) : ℤ :=
  computeSpan (env.naturalMeasure i) (env.styles (env.gridOf i))

/-- The item's row span after it expands across the full row. -/
def expandedSpan (env : HoverEnv) (i : ℕ) : ℤ :=
  computeSpan (env.expandedMeasure i) (env.styles (env.gridOf i))

/-- The mutable state the hover handlers close over. -/
structure HoverState where
  items : ℕ → ItemStyle
  expandedItemRef : Option ℕ
  expandedGridRef : Option ℕ
  originalScrollY : Option ℤ
  isForwardScroll : Bool
  scrollY : ℤ

/-- Update one item's style. -/
def setItem (s : HoverState) (i : ℕ) (st : ItemStyle) : HoverState :=
  { s with items := fun j => if j = i then st else s.items j }

/-- The style clearing both handlers perform on a collapsing item:
`style.gridColumn = ''`, `classList.remove('masonry-item-expanded')`,
`img.classList.remove('expanded-image')`.  The row span is untouched
here: neither handler resets `gridRowEnd` while clearing these. -/
def clearExpandStyles (st : ItemStyle) : ItemStyle :=
  { st with gridColumnFull := false, expandedClass := false, imgExpandedClass := false }

/-- `onMouseEnter` on item `target`; `outOfView` is the result of the
`rect.top < 80 || rect.bottom > viewportHeight - 80` measurement in the
second animation frame, and `desiredTop` the clamped scroll target
computed there.  Steps, in source order: bail out during a forward
scroll; record `originalScrollYRef` when no item is tracked as
expanded; clear the previously expanded item's column span and classes
(its row span is not recomputed); expand `target` across the columns;
store the refs; first frame: recompute `target`'s row span from its
expanded rendered height; second frame: when out of view, engage the
lock and issue the smooth scroll (modelled as eventually settling at
`max 0 desiredTop`). -/
def enterItem (env : HoverEnv) (s : HoverState) (target : ℕ)
    (outOfView : Bool) (desiredTop : ℤ) : HoverState :=
  if s.isForwardScroll then s
  else
    let s1 :=
      if s.expandedItemRef = none then { s with originalScrollY := some s.scrollY } else s
    let s2 :=
      match s1.expandedItemRef with
      | some prev =>
          if prev ≠ target then setItem s1 prev (clearExpandStyles (s1.items prev)) else s1
      | none => s1
    let s3 := setItem s2 target
      { s2.items target with gridColumnFull := true, expandedClass := true, imgExpandedClass := true }
    let s4 := { s3 with
      expandedItemRef := some target, expandedGridRef := some (env.gridOf target) }
    let s5 := setItem s4 target { s4.items target with rowSpan := expandedSpan env target }
    if outOfView then
      { s5 with isForwardScroll := true, scrollY := max 0 desiredTop }
    else s5

/-- `target.dispatchEvent(new Event('collapse'))`: the source registers
no listener for a synthetic 'collapse' event on any element, so the
dispatch changes no state. -/
def dispatchCollapseEvent (s : HoverState) (_target : ℕ) : HoverState := s

/-- `onMouseLeave` on item `target` with `e.relatedTarget` resolving to
the masonry item `related` (or `none` when the pointer moved to a
non-item).  When the forward-scroll lock is engaged for `target`
itself the handler only schedules `waitForUnlock` and returns — the
collapse is deferred (its later effect is in `unlockStep`).  Otherwise
it clears the expand styles, recomputes the natural row span in an
animation frame, and, when `target` was the tracked expanded item,
clears the refs and scrolls back to `originalScrollYRef` unless the
pointer moved to another item of the same grid. -/
def leaveItem (env : HoverEnv) (s : HoverState) (target : ℕ)
    (related : Option ℕ) : HoverState :=
  if s.isForwardScroll ∧ s.expandedItemRef = some target then s
  else
    let s1 := setItem s target (clearExpandStyles (s.items target))
    let s2 := setItem s1 target { s1.items target with rowSpan := naturalSpan env target }
    let movingWithinGrid : Bool :=
      match related with
      | some r => decide (env.gridOf r = env.gridOf target)
      | none => false
    if s2.expandedItemRef = some target then
      let s3 := { s2 with expandedItemRef := none, expandedGridRef := none }
      if !movingWithinGrid && s3.originalScrollY.isSome then
        { s3 with scrollY := max 0 (s3.originalScrollY.getD 0), originalScrollY := none }
      else s3
    else s2

/-- The forward-scroll lock releasing (`checkDone` hit its condition):
`isForwardScrollRef.current = false`.  A `waitForUnlock` poll pending
from a deferred `onMouseLeave` on `pending` then runs: if the pointer
is not back over the item (`stillHovered = false`) it dispatches the
synthetic 'collapse' event — which has no listener — otherwise it does
nothing. -/
def unlockStep (s : HoverState) (pending : Option ℕ) (stillHovered : Bool) : HoverState :=
  let s1 := { s with isForwardScroll := false }
  match pending with
  | some t => if stillHovered then s1 else dispatchCollapseEvent s1 t
  | none => s1

/-- The pointer / frame events driving the hover machine. -/
inductive HoverEv where
  | enter (i : ℕ) (outOfView : Bool) (desiredTop : ℤ)
  | leave (i : ℕ) (related : Option ℕ)
  | unlock (pending : Option ℕ) (stillHovered : Bool)

/-- One settled step of the machine. -/
def hoverStep (env : HoverEnv) (s : HoverState) : HoverEv → HoverState
  | HoverEv.enter i outOfView desiredTop => enterItem env s i outOfView desiredTop
  | HoverEv.leave i related => leaveItem env s i related
  | HoverEv.unlock pending stillHovered => unlockStep s pending stillHovered

/-- The state after the page mounts: no inline column span, no expanded
classes, every row span set by the mount-time `resizeAll` pass, all
refs null / false, at scroll offset `y0`. -/
def initHover (env : HoverEnv) (y0 : ℤ) : HoverState :=
  { items := fun i =>
      { gridColumnFull := false, expandedClass := false,
        imgExpandedClass := false, rowSpan := naturalSpan env i }
    expandedItemRef := none
    expandedGridRef := none
    originalScrollY := none
    isForwardScroll := false
    scrollY := y0 }

/-- Run a sequence of events from a state. -/
def runHover (env : HoverEnv) (s : HoverState) (evs : List HoverEv) : HoverState :=
  evs.foldl (hoverStep env) s

/-- The single-expansion invariant: every item carrying the
`masonry-item-expanded` class is the item `expandedItemRef` tracks (so
in particular at most one item carries it). -/
def HoverInv (s : HoverState) : Prop :=
  ∀ i : ℕ, (s.items i).expandedClass = true → s.expandedItemRef = some i

/-! ## Concrete fixtures used to exercise the definitions -/

/-- A small feed: post 0 has no `images` field, post 1 has three
images, post 2 has an empty image list. -/
def demoPosts : List BlogPostData :=
  [ { title := "Alpha", images := none },
    { title := "Beach day",
      images := some [⟨"a.jpg", "a"⟩, ⟨"b.jpg", "b"⟩, ⟨"c.jpg", "c"⟩] },
    { title := "Quiet week", images := some [] } ]

/-- A lightbox session open on post 1, image 2 (of its 3 images). -/
def demoLightbox : LightboxState :=
  { isOpen := true, currentImageIndex := 2, postIndex := 1 }

/-- A one-grid measurement environment: item 0 renders at 200px
(natural) and 600px (expanded across the row), every other item at
150px natural; the grid's computed styles are `grid-auto-rows: 8px`,
`row-gap: 16px`. -/
def demoEnv : HoverEnv :=
  { gridOf := fun _ => 0
    naturalMeasure := fun i => if i = 0 then ⟨some 200, 0⟩ else ⟨some 150, 0⟩
    expandedMeasure := fun _ => ⟨some 600, 0⟩
    styles := fun _ => ⟨some 8, some 16⟩ }

/-- A settled state in which item 0 is expanded (row span 26, its
expanded value under `demoEnv`), the refs track it, and the lock is
free. -/
def demoExpandedState : HoverState :=
  { items := fun i =>
      if i = 0 then ⟨true, true, true, 26⟩ else ⟨false, false, false, 7⟩
    expandedItemRef := some 0
    expandedGridRef := some 0
    originalScrollY := some 0
    isForwardScroll := false
    scrollY := 0 }

end WebsiteAndi

namespace WebsiteAndi

/-! ## Helper lemmas -/

/-- Evaluate `computeSpan` at a claimed result `n`: the quotient lies
in `(n-1, n]` and `n ≥ 1`. -/
theorem computeSpan_eval (item : ItemMeasure) (grid : GridStyles) (n : ℤ)
    (h3 : 1 ≤ n)
    (h1 : (n : ℚ) - 1 <
      (contentHeight item + (getRowMetrics grid).2) /
        ((getRowMetrics grid).1 + (getRowMetrics grid).2))
    (h2 : (contentHeight item + (getRowMetrics grid).2) /
        ((getRowMetrics grid).1 + (getRowMetrics grid).2) ≤ n) :
    computeSpan item grid = n := by
  show max 1 ⌈(contentHeight item + (getRowMetrics grid).2) /
      ((getRowMetrics grid).1 + (getRowMetrics grid).2)⌉ = n
  rw [Int.ceil_eq_iff.mpr ⟨h1, h2⟩, max_eq_right h3]

theorem contentHeight_some (h : ℚ) (s : ℚ) : contentHeight ⟨some h, s⟩ = h := rfl

theorem getRowMetrics_default_grid : getRowMetrics ⟨some 8, some 16⟩ = (8, 16) := by
  simp [getRowMetrics, jsOrDefault]

theorem span_200 : computeSpan ⟨some 200, 0⟩ ⟨some 8, some 16⟩ = 9 := by
  apply computeSpan_eval <;>
    simp [contentHeight_some, getRowMetrics_default_grid] <;> norm_num

theorem span_400 : computeSpan ⟨some 400, 0⟩ ⟨some 8, some 16⟩ = 18 := by
  apply computeSpan_eval <;>
    simp [contentHeight_some, getRowMetrics_default_grid] <;> norm_num

theorem span_150 : computeSpan ⟨some 150, 0⟩ ⟨some 8, some 16⟩ = 7 := by
  apply computeSpan_eval <;>
    simp [contentHeight_some, getRowMetrics_default_grid] <;> norm_num

theorem span_600 : computeSpan ⟨some 600, 0⟩ ⟨some 8, some 16⟩ = 26 := by
  apply computeSpan_eval <;>
    simp [contentHeight_some, getRowMetrics_default_grid] <;> norm_num

/-! ## C2: the masonry row-span contract -/

/-- C2: for every item and grid, `computeSpan` returns
`max(1, ceil((measuredHeight + rowGap) / (rowHeight + rowGap)))` where
`measuredHeight` is the image height falling back to the container
(`contentHeight`) and the metrics fall back to `rowHeight = 8`,
`rowGap = 16` when the computed style is unavailable; the result is an
integer that is at least 1. -/
theorem c2_computeSpan_contract (item : ItemMeasure) (grid : GridStyles) :
    computeSpan item grid =
      max 1 ⌈(contentHeight item + (getRowMetrics grid).2) /
        ((getRowMetrics grid).1 + (getRowMetrics grid).2)⌉ ∧
    1 ≤ computeSpan item grid ∧
    contentHeight ⟨none, item.selfHeight⟩ = item.selfHeight ∧
    getRowMetrics ⟨none, none⟩ = (8, 16) :=
  ⟨rfl, le_max_left _ _, rfl, rfl⟩

/-! ## C4: the four-image scenario (the spec's `[9,17,7,26]` is wrong) -/

/-- C4 counterexample: at measured height 400 with `rowHeight = 8`,
`rowGap = 16` the span is `ceil(416/24) = 18`, not the 17 the claim
asserts. -/
theorem c4_counterexample :
    computeSpan ⟨some 400, 0⟩ ⟨some 8, some 16⟩ = 18 ∧
    computeSpan ⟨some 400, 0⟩ ⟨some 8, some 16⟩ ≠ 17 := by
  refine ⟨span_400, ?_⟩
  rw [span_400]
  decide

/-- C4 amended: heights `[200, 400, 150, 600]` under `rowHeight = 8`,
`rowGap = 16` get spans `[9, 18, 7, 26]`. -/
theorem c4_spans_amended :
    ([⟨some 200, 0⟩, ⟨some 400, 0⟩, ⟨some 150, 0⟩, ⟨some 600, 0⟩] :
        List ItemMeasure).map (fun m => computeSpan m ⟨some 8, some 16⟩) =
      [9, 18, 7, 26] := by
  simp [List.map, span_200, span_400, span_150, span_600]

/-! ## Lightbox navigation lemmas -/

theorem navigateLightbox_next_eq (posts : List BlogPostData) (s : LightboxState)
    (imgs : List GalleryImage)
    (himgs : (posts.get? s.postIndex).bind BlogPostData.images = some imgs) :
    navigateLightbox posts NavDirection.next s =
      { s with currentImageIndex := (s.currentImageIndex + 1) % imgs.length } := by
  unfold navigateLightbox
  rw [himgs]

theorem navigateLightbox_prev_eq (posts : List BlogPostData) (s : LightboxState)
    (imgs : List GalleryImage)
    (himgs : (posts.get? s.postIndex).bind BlogPostData.images = some imgs) :
    navigateLightbox posts NavDirection.prev s =
      { s with currentImageIndex :=
          (((s.currentImageIndex : ℤ) - 1 + imgs.length) % (imgs.length : ℤ)).toNat } := by
  unfold navigateLightbox
  rw [himgs]

theorem wrap_prev_of_next (n i : ℕ) (_hn : 0 < n) (hi : i < n) :
    ((((i + 1) % n : ℕ) : ℤ) - 1 + (n : ℤ)) % (n : ℤ) = (i : ℤ) := by
  have hi' : (i : ℤ) < n := by exact_mod_cast hi
  have hi0 : (0 : ℤ) ≤ i := Int.natCast_nonneg i
  calc ((((i + 1) % n : ℕ) : ℤ) - 1 + (n : ℤ)) % (n : ℤ)
      = (((i : ℤ) + 1) % n - 1 + n) % n := by push_cast; ring_nf
    _ = (((i : ℤ) + 1) % n + (n - 1)) % n := by ring_nf
    _ = (((i : ℤ) + 1) + (n - 1)) % n := Int.emod_add_emod _ _ _
    _ = ((i : ℤ) + n) % n := by ring_nf
    _ = (i : ℤ) % n := Int.add_emod_self
    _ = (i : ℤ) := Int.emod_eq_of_lt hi0 hi'

theorem wrap_next_of_prev (n i : ℕ) (hn : 0 < n) (hi : i < n) :
    (((((i : ℤ) - 1 + n) % (n : ℤ)).toNat + 1) % n : ℕ) = i := by
  have hn' : (n : ℤ) ≠ 0 := by exact_mod_cast hn.ne'
  have hj0 : 0 ≤ ((i : ℤ) - 1 + n) % (n : ℤ) := Int.emod_nonneg _ hn'
  have hi' : (i : ℤ) < n := by exact_mod_cast hi
  have hi0 : (0 : ℤ) ≤ i := Int.natCast_nonneg i
  have hz : ((((((i : ℤ) - 1 + n) % (n : ℤ)).toNat + 1) % n : ℕ) : ℤ) = (i : ℤ) := by
    calc ((((((i : ℤ) - 1 + n) % (n : ℤ)).toNat + 1) % n : ℕ) : ℤ)
        = (((((i : ℤ) - 1 + n) % (n : ℤ)).toNat : ℤ) + 1) % (n : ℤ) := by push_cast; ring_nf
      _ = (((i : ℤ) - 1 + n) % (n : ℤ) + 1) % n := by rw [Int.toNat_of_nonneg hj0]
      _ = (((i : ℤ) - 1 + n) + 1) % n := Int.emod_add_emod _ _ _
      _ = ((i : ℤ) + n) % n := by ring_nf
      _ = (i : ℤ) % n := Int.add_emod_self
      _ = (i : ℤ) := Int.emod_eq_of_lt hi0 hi'
  exact_mod_cast hz

theorem navigateLightbox_next_iter (posts : List BlogPostData) (s : LightboxState)
    (imgs : List GalleryImage)
    (himgs : (posts.get? s.postIndex).bind BlogPostData.images = some imgs)
    (hi : s.currentImageIndex < imgs.length) :
    ∀ k : ℕ, (navigateLightbox posts NavDirection.next)^[k] s =
      { s with currentImageIndex := (s.currentImageIndex + k) % imgs.length } := by
  obtain ⟨o, i, p⟩ := s
  intro k
  induction k with
  | zero =>
      simp only [Function.iterate_zero, id_eq, Nat.add_zero, Nat.mod_eq_of_lt hi]
  | succ k ih =>
      rw [Function.iterate_succ_apply', ih]
      rw [navigateLightbox_next_eq posts
        { isOpen := o, currentImageIndex := (i + k) % imgs.length, postIndex := p }
        imgs himgs]
      simp only [Nat.mod_add_mod, Nat.add_assoc]

/-! ## C3: lightbox wrap-around navigation -/

/-- C3: for a lightbox open on a post with `n ≥ 1` images and a valid
index, `next` maps `i` to `(i+1) mod n` and `prev` to
`(i-1+n) mod n`; `next` applied `n` times is the identity and `prev`
is the exact inverse of `next` (both ways). -/
theorem c3_lightbox_wrap (posts : List BlogPostData) (s : LightboxState)
    (imgs : List GalleryImage)
    (himgs : (posts.get? s.postIndex).bind BlogPostData.images = some imgs)
    (hn : 1 ≤ imgs.length) (hi : s.currentImageIndex < imgs.length) :
    (navigateLightbox posts NavDirection.next s).currentImageIndex
        = (s.currentImageIndex + 1) % imgs.length ∧
    (navigateLightbox posts NavDirection.prev s).currentImageIndex
        = (((s.currentImageIndex : ℤ) - 1 + imgs.length) % (imgs.length : ℤ)).toNat ∧
    (navigateLightbox posts NavDirection.next)^[imgs.length] s = s ∧
    navigateLightbox posts NavDirection.prev (navigateLightbox posts NavDirection.next s) = s ∧
    navigateLightbox posts NavDirection.next (navigateLightbox posts NavDirection.prev s) = s := by
  obtain ⟨o, i, p⟩ := s
  have hnext := navigateLightbox_next_eq posts ⟨o, i, p⟩ imgs himgs
  have hprev := navigateLightbox_prev_eq posts ⟨o, i, p⟩ imgs himgs
  refine ⟨by rw [hnext], by rw [hprev], ?_, ?_, ?_⟩
  · rw [navigateLightbox_next_iter posts ⟨o, i, p⟩ imgs himgs hi imgs.length]
    simp only [Nat.add_mod_right, Nat.mod_eq_of_lt hi]
  · rw [hnext]
    rw [navigateLightbox_prev_eq posts
      { isOpen := o, currentImageIndex := (i + 1) % imgs.length, postIndex := p } imgs himgs]
    have := wrap_prev_of_next imgs.length i hn hi
    simp only [this, Int.toNat_natCast]
  · rw [hprev]
    rw [navigateLightbox_next_eq posts
      { isOpen := o,
        currentImageIndex := (((i : ℤ) - 1 + imgs.length) % (imgs.length : ℤ)).toNat,
        postIndex := p } imgs himgs]
    have := wrap_next_of_prev imgs.length i hn hi
    simp only [this]

/-- C3 witness: the spec's scenario — lightbox open at `postIndex = 1`,
`imageIndex = 2`, with 3 images; the theorem applies and in particular
`next` lands on image 0 and `prev` on image 2. -/
theorem c3_lightbox_wrap_witness :
    ((demoPosts.get? demoLightbox.postIndex).bind BlogPostData.images
        = some [⟨"a.jpg", "a"⟩, ⟨"b.jpg", "b"⟩, ⟨"c.jpg", "c"⟩] ∧
      1 ≤ 3 ∧ demoLightbox.currentImageIndex < 3) ∧
    ((navigateLightbox demoPosts NavDirection.next demoLightbox).currentImageIndex = (2 + 1) % 3 ∧
      (navigateLightbox demoPosts NavDirection.prev demoLightbox).currentImageIndex
        = (((2 : ℤ) - 1 + 3) % (3 : ℤ)).toNat ∧
      (navigateLightbox demoPosts NavDirection.next)^[3] demoLightbox = demoLightbox ∧
      navigateLightbox demoPosts NavDirection.prev
        (navigateLightbox demoPosts NavDirection.next demoLightbox) = demoLightbox ∧
      navigateLightbox demoPosts NavDirection.next
        (navigateLightbox demoPosts NavDirection.prev demoLightbox) = demoLightbox) :=
  ⟨⟨by decide, by decide, by decide⟩,
    c3_lightbox_wrap demoPosts demoLightbox [⟨"a.jpg", "a"⟩, ⟨"b.jpg", "b"⟩, ⟨"c.jpg", "c"⟩]
      (by decide) (by decide) (by decide)⟩

/-! ## C6: the forward-scroll lock always releases -/

theorem timeAt_lower_bound (timeAt : ℕ → ℤ)
    (hmono : ∀ k, timeAt k + 1 ≤ timeAt (k + 1)) :
    ∀ k : ℕ, timeAt 0 + k ≤ timeAt k := by
  intro k
  induction k with
  | zero => omega
  | succ k ih =>
      have := hmono k
      push_cast
      push_cast at ih
      omega

/-- C6: with the lock engaged for a scroll toward `y` started at time
`start`, polling releases it exactly when the offset is within 2px of
`y` or more than 1600ms have elapsed; since `Date.now()` advances by at
least 1ms per animation frame, some tick within the first 1602 releases
the lock — it never leaks.  The last conjunct is the spec scenario:
an offset of 799 against target 800 releases on the spot. -/
theorem c6_scroll_lock_release (y start : ℤ) (scrollAt timeAt : ℕ → ℤ)
    (hmono : ∀ k, timeAt k + 1 ≤ timeAt (k + 1)) (h0 : start ≤ timeAt 0) :
    (∃ k, k ≤ 1602 ∧ lockAfter y start scrollAt timeAt k = false) ∧
    (∀ k, lockAfter y start scrollAt timeAt (k + 1) = false ↔
      (lockAfter y start scrollAt timeAt k = false ∨
        checkDoneCond y (scrollAt k) start (timeAt k) = true)) ∧
    (∀ s n : ℤ, checkDoneCond 800 799 s n = true) := by
  refine ⟨⟨1602, le_refl _, ?_⟩, ?_, ?_⟩
  · have hbound := timeAt_lower_bound timeAt hmono 1601
    have hcond : checkDoneCond y (scrollAt 1601) start (timeAt 1601) = true := by
      simp only [checkDoneCond, Bool.or_eq_true, decide_eq_true_eq]
      right
      push_cast at hbound
      omega
    show (lockAfter y start scrollAt timeAt 1601 &&
      !(checkDoneCond y (scrollAt 1601) start (timeAt 1601))) = false
    rw [hcond]
    simp
  · intro k
    show (lockAfter y start scrollAt timeAt k &&
      !(checkDoneCond y (scrollAt k) start (timeAt k))) = false ↔ _
    cases h1 : lockAfter y start scrollAt timeAt k <;>
      cases h2 : checkDoneCond y (scrollAt k) start (timeAt k) <;> simp
  · intro s n
    simp only [checkDoneCond, Bool.or_eq_true, decide_eq_true_eq]
    left
    decide

/-- C6 witness: target 800, start time 0, the page stuck at offset 799,
`Date.now()` advancing 1ms per tick: the hypotheses hold and the lock
releases within the bound. -/
theorem c6_scroll_lock_release_witness :
    ((∀ k : ℕ, (fun j : ℕ => (j : ℤ)) k + 1 ≤ (fun j : ℕ => (j : ℤ)) (k + 1)) ∧
      (0 : ℤ) ≤ (fun j : ℕ => (j : ℤ)) 0) ∧
    ((∃ k, k ≤ 1602 ∧
        lockAfter 800 0 (fun _ => 799) (fun j : ℕ => (j : ℤ)) k = false) ∧
      (∀ k, lockAfter 800 0 (fun _ => 799) (fun j : ℕ => (j : ℤ)) (k + 1) = false ↔
        (lockAfter 800 0 (fun _ => 799) (fun j : ℕ => (j : ℤ)) k = false ∨
          checkDoneCond 800 ((fun _ : ℕ => (799 : ℤ)) k) 0 ((fun j : ℕ => (j : ℤ)) k) = true)) ∧
      (∀ s n : ℤ, checkDoneCond 800 799 s n = true)) :=
  ⟨⟨by intro k; push_cast; omega, by norm_num⟩,
    c6_scroll_lock_release 800 0 (fun _ => 799) (fun j : ℕ => (j : ℤ))
      (by intro k; push_cast; omega) (by norm_num)⟩

/-! ## C5: the scroll-progress clamp lets NaN through -/

/-! ## C8: opening the lightbox for an imageless post -/

/-- C8: clicking where a gallery image of post `postIdx` would be is a
no-op when that post has no images (`images` absent or empty): no
`onClick` handler was rendered for it, so the lightbox state — in
particular `isOpen` — is unchanged and the `Open` state is never
entered. -/
theorem c8_lightbox_no_images_noop (posts : List BlogPostData) (s : LightboxState)
    (p : BlogPostData) (postIdx imgIndex : ℕ)
    (hp : posts.get? postIdx = some p)
    (hno : p.images = none ∨ p.images = some []) :
    clickImage posts s postIdx imgIndex = s ∧
    (clickImage posts s postIdx imgIndex).isOpen = s.isOpen := by
  have h : clickImage posts s postIdx imgIndex = s := by
    unfold clickImage
    rw [hp]
    rcases hno with hno | hno <;> simp [hno]
  exact ⟨h, by rw [h]⟩

/-- C8 witness: post 0 of the demo feed has no `images`; clicking its
(nonexistent) image 0 with the lightbox closed leaves it closed. -/
theorem c8_lightbox_no_images_noop_witness :
    (demoPosts.get? 0 = some { title := "Alpha", images := none } ∧
      ({ title := "Alpha", images := none } : BlogPostData).images = none) ∧
    (clickImage demoPosts closeLightbox 0 0 = closeLightbox ∧
      (clickImage demoPosts closeLightbox 0 0).isOpen = closeLightbox.isOpen) :=
  ⟨⟨by decide, rfl⟩,
    c8_lightbox_no_images_noop demoPosts closeLightbox
      { title := "Alpha", images := none } 0 0 (by decide) (Or.inl rfl)⟩

/-! ## Hover-expand machine characterization lemmas -/

theorem enterItem_locked (env : HoverEnv) (s : HoverState) (target : ℕ)
    (ov : Bool) (top : ℤ) (hlock : s.isForwardScroll = true) :
    enterItem env s target ov top = s := by
  simp [enterItem, hlock]

theorem enterItem_items (env : HoverEnv) (s : HoverState) (target : ℕ)
    (ov : Bool) (top : ℤ) (hlock : s.isForwardScroll = false) (j : ℕ) :
    (enterItem env s target ov top).items j =
      if j = target then
        { gridColumnFull := true, expandedClass := true, imgExpandedClass := true,
          rowSpan := expandedSpan env target }
      else if s.expandedItemRef = some j then clearExpandStyles (s.items j)
      else s.items j := by
  unfold enterItem setItem clearExpandStyles
  simp only [hlock, Bool.false_eq_true, if_false]
  rcases href : s.expandedItemRef with _ | prev
  · by_cases hj : j = target <;> by_cases hov : ov = true <;>
      simp [href, hj, hov]
  · by_cases hpt : prev = target
    · by_cases hj : j = target
      · by_cases hov : ov = true <;> simp [href, hj, hov, hpt]
      · by_cases hov : ov = true <;>
          simp [href, hj, hov, hpt, Ne.symm hj]
    · by_cases hj : j = target
      · by_cases hov : ov = true <;> simp [href, hj, hov, hpt]
      · by_cases hjp : j = prev
        · subst hjp
          by_cases hov : ov = true <;> simp [href, hj, hov, hpt]
        · by_cases hov : ov = true <;>
            simp [href, hj, hov, hpt, Ne.symm hjp, hjp]

theorem enterItem_ref (env : HoverEnv) (s : HoverState) (target : ℕ)
    (ov : Bool) (top : ℤ) (hlock : s.isForwardScroll = false) :
    (enterItem env s target ov top).expandedItemRef = some target := by
  unfold enterItem setItem
  simp only [hlock, Bool.false_eq_true, if_false]
  rcases href : s.expandedItemRef with _ | prev <;>
    by_cases hov : ov = true <;>
      simp [href, hov]

theorem leaveItem_deferred (env : HoverEnv) (s : HoverState) (target : ℕ)
    (related : Option ℕ) (h1 : s.isForwardScroll = true)
    (h2 : s.expandedItemRef = some target) :
    leaveItem env s target related = s := by
  simp [leaveItem, h1, h2]

theorem leaveItem_items (env : HoverEnv) (s : HoverState) (target : ℕ)
    (related : Option ℕ)
    (hdefer : ¬(s.isForwardScroll = true ∧ s.expandedItemRef = some target)) (j : ℕ) :
    (leaveItem env s target related).items j =
      if j = target then
        { gridColumnFull := false, expandedClass := false, imgExpandedClass := false,
          rowSpan := naturalSpan env target }
      else s.items j := by
  unfold leaveItem setItem clearExpandStyles
  rw [if_neg hdefer]
  by_cases hj : j = target <;>
    by_cases href : s.expandedItemRef = some target <;>
      simp [hj, href] <;>
  split <;> simp [hj]

theorem leaveItem_ref (env : HoverEnv) (s : HoverState) (target : ℕ)
    (related : Option ℕ)
    (hdefer : ¬(s.isForwardScroll = true ∧ s.expandedItemRef = some target)) :
    (leaveItem env s target related).expandedItemRef =
      if s.expandedItemRef = some target then none else s.expandedItemRef := by
  unfold leaveItem setItem
  rw [if_neg hdefer]
  by_cases href : s.expandedItemRef = some target <;>
    simp [href] <;>
  split <;> simp

theorem unlockStep_items (s : HoverState) (pending : Option ℕ) (stillHovered : Bool) :
    (unlockStep s pending stillHovered).items = s.items := by
  unfold unlockStep dispatchCollapseEvent
  cases pending <;> [rfl; (cases stillHovered <;> rfl)]

theorem unlockStep_ref (s : HoverState) (pending : Option ℕ) (stillHovered : Bool) :
    (unlockStep s pending stillHovered).expandedItemRef = s.expandedItemRef := by
  unfold unlockStep dispatchCollapseEvent
  cases pending <;> [rfl; (cases stillHovered <;> rfl)]

theorem hoverInv_step (env : HoverEnv) (s : HoverState) (e : HoverEv)
    (h : HoverInv s) : HoverInv (hoverStep env s e) := by
  cases e with
  | enter target ov top =>
      by_cases hlock : s.isForwardScroll = true
      · show HoverInv (enterItem env s target ov top)
        rw [enterItem_locked env s target ov top hlock]
        exact h
      · have hlock' : s.isForwardScroll = false := by
          cases hb : s.isForwardScroll
          · rfl
          · exact absurd hb hlock
        intro i hi
        rw [show hoverStep env s (HoverEv.enter target ov top)
          = enterItem env s target ov top from rfl] at hi ⊢
        rw [enterItem_items env s target ov top hlock' i] at hi
        rw [enterItem_ref env s target ov top hlock']
        by_cases hj : i = target
        · rw [hj]
        · rw [if_neg hj] at hi
          by_cases hp : s.expandedItemRef = some i
          · rw [if_pos hp] at hi
            simp [clearExpandStyles] at hi
          · rw [if_neg hp] at hi
            exact absurd (h i hi) hp
  | leave target related =>
      by_cases hdefer : s.isForwardScroll = true ∧ s.expandedItemRef = some target
      · show HoverInv (leaveItem env s target related)
        rw [leaveItem_deferred env s target related hdefer.1 hdefer.2]
        exact h
      · intro i hi
        rw [show hoverStep env s (HoverEv.leave target related)
          = leaveItem env s target related from rfl] at hi ⊢
        rw [leaveItem_items env s target related hdefer i] at hi
        rw [leaveItem_ref env s target related hdefer]
        by_cases hj : i = target
        · rw [if_pos hj] at hi
          simp at hi
        · rw [if_neg hj] at hi
          have href := h i hi
          rw [href]
          rw [if_neg (by simp [hj])]
  | unlock pending stillHovered =>
      intro i hi
      rw [show hoverStep env s (HoverEv.unlock pending stillHovered)
        = unlockStep s pending stillHovered from rfl] at hi ⊢
      rw [unlockStep_items s pending stillHovered] at hi
      rw [unlockStep_ref s pending stillHovered]
      exact h i hi

theorem hoverInv_runHover (env : HoverEnv) :
    ∀ (evs : List HoverEv) (s : HoverState), HoverInv s → HoverInv (runHover env s evs) := by
  intro evs
  induction evs with
  | nil => intro s h; exact h
  | cons e rest ih =>
      intro s h
      exact ih (hoverStep env s e) (hoverInv_step env s e h)

theorem hoverInv_init (env : HoverEnv) (y0 : ℤ) : HoverInv (initHover env y0) := by
  intro i hi
  simp [initHover] at hi

theorem demoEnv_naturalSpan_0 : naturalSpan demoEnv 0 = 9 := by
  show computeSpan ⟨some 200, 0⟩ ⟨some 8, some 16⟩ = 9
  exact span_200

theorem demoEnv_expandedSpan (i : ℕ) : expandedSpan demoEnv i = 26 := by
  show computeSpan ⟨some 600, 0⟩ ⟨some 8, some 16⟩ = 26
  exact span_600

/-! ## C1: at most one expanded item in any settled state -/

/-- C1: after any sequence of pointer-enter / pointer-leave / unlock
events from the mount state, any two items carrying the expanded class
coincide — at most one gallery item (across all grids, since items are
global keys) is expanded in any settled state.  The enter handler
collapses the previously expanded item in the same synchronous step in
which it expands the hovered one. -/
theorem c1_at_most_one_expanded (env : HoverEnv) (y0 : ℤ) (evs : List HoverEv) (i j : ℕ)
    (hi : ((runHover env (initHover env y0) evs).items i).expandedClass = true)
    (hj : ((runHover env (initHover env y0) evs).items j).expandedClass = true) :
    i = j := by
  have hInv := hoverInv_runHover env evs (initHover env y0) (hoverInv_init env y0)
  have h1 := hInv i hi
  have h2 := hInv j hj
  rw [h1] at h2
  exact Option.some.inj h2

/-- C1 witness: after hovering item 0 from the mount state, item 0 is
expanded, and the theorem applies with `i = j = 0`. -/
theorem c1_at_most_one_expanded_witness :
    (((runHover demoEnv (initHover demoEnv 0) [HoverEv.enter 0 false 0]).items 0).expandedClass
        = true ∧
      ((runHover demoEnv (initHover demoEnv 0) [HoverEv.enter 0 false 0]).items 0).expandedClass
        = true) ∧
    (0 : ℕ) = 0 :=
  ⟨⟨rfl, rfl⟩, c1_at_most_one_expanded demoEnv 0 [HoverEv.enter 0 false 0] 0 0 rfl rfl⟩

/-! ## C7: what pointer-enter does to a still-expanded other item -/

/-- C7 counterexample: run `enter 0` (out of view, so the lock engages),
`leave 0` (deferred because the lock is held for item 0), `unlock`
(pointer still outside; the dispatched 'collapse' event has no
listener).  Item 0 is then still expanded with its expanded row span,
and the lock is free.  The subsequent `enter 2` — a pointer-enter while
a different item is currently expanded — clears item 0's expanded flag
but leaves its row span at 26, the expanded value, whereas the claim
says it is recomputed to its natural value 9. -/
theorem c7_counterexample :
    (runHover demoEnv (initHover demoEnv 0)
      [HoverEv.enter 0 true 100, HoverEv.leave 0 none,
        HoverEv.unlock (some 0) false]).isForwardScroll = false ∧
    (runHover demoEnv (initHover demoEnv 0)
      [HoverEv.enter 0 true 100, HoverEv.leave 0 none,
        HoverEv.unlock (some 0) false]).expandedItemRef = some 0 ∧
    ((runHover demoEnv (initHover demoEnv 0)
      [HoverEv.enter 0 true 100, HoverEv.leave 0 none,
        HoverEv.unlock (some 0) false]).items 0).expandedClass = true ∧
    ((runHover demoEnv (initHover demoEnv 0)
      [HoverEv.enter 0 true 100, HoverEv.leave 0 none,
        HoverEv.unlock (some 0) false, HoverEv.enter 2 false 0]).items 0).expandedClass
      = false ∧
    ((runHover demoEnv (initHover demoEnv 0)
      [HoverEv.enter 0 true 100, HoverEv.leave 0 none,
        HoverEv.unlock (some 0) false, HoverEv.enter 2 false 0]).items 0).rowSpan = 26 ∧
    naturalSpan demoEnv 0 = 9 := by
  refine ⟨rfl, rfl, rfl, rfl, ?_, demoEnv_naturalSpan_0⟩
  have h : ((runHover demoEnv (initHover demoEnv 0)
      [HoverEv.enter 0 true 100, HoverEv.leave 0 none,
        HoverEv.unlock (some 0) false, HoverEv.enter 2 false 0]).items 0).rowSpan
      = expandedSpan demoEnv 0 := rfl
  rw [h, demoEnv_expandedSpan]

/-- C7 amended: on pointer-enter of item `i` while a different item
`i'` is expanded (lock free), `i'` has its expanded flag and full-row
column span cleared but its row span is NOT recomputed — it keeps its
previous value — while `i` is expanded with its row span recomputed
from its expanded height, all in the same settled step. -/
theorem c7_enter_collapses_previous (env : HoverEnv) (s : HoverState) (i i' : ℕ)
    (ov : Bool) (top : ℤ) (hlock : s.isForwardScroll = false)
    (href : s.expandedItemRef = some i') (hne : i' ≠ i) :
    ((enterItem env s i ov top).items i').expandedClass = false ∧
    ((enterItem env s i ov top).items i').gridColumnFull = false ∧
    ((enterItem env s i ov top).items i').rowSpan = (s.items i').rowSpan ∧
    ((enterItem env s i ov top).items i).expandedClass = true ∧
    ((enterItem env s i ov top).items i).rowSpan = expandedSpan env i ∧
    (enterItem env s i ov top).expandedItemRef = some i := by
  have hi' := enterItem_items env s i ov top hlock i'
  have hi := enterItem_items env s i ov top hlock i
  rw [if_neg hne, if_pos href] at hi'
  rw [if_pos rfl] at hi
  exact ⟨by rw [hi']; rfl, by rw [hi']; rfl, by rw [hi']; rfl,
    by rw [hi], by rw [hi], enterItem_ref env s i ov top hlock⟩

/-- C7 witness: entering item 2 while item 0 is expanded (span 26) in
the settled demo state: item 0 keeps row span 26, item 2 expands. -/
theorem c7_enter_collapses_previous_witness :
    (demoExpandedState.isForwardScroll = false ∧
      demoExpandedState.expandedItemRef = some 0 ∧ (0 : ℕ) ≠ 2) ∧
    (((enterItem demoEnv demoExpandedState 2 false 0).items 0).expandedClass = false ∧
      ((enterItem demoEnv demoExpandedState 2 false 0).items 0).gridColumnFull = false ∧
      ((enterItem demoEnv demoExpandedState 2 false 0).items 0).rowSpan
        = (demoExpandedState.items 0).rowSpan ∧
      ((enterItem demoEnv demoExpandedState 2 false 0).items 2).expandedClass = true ∧
      ((enterItem demoEnv demoExpandedState 2 false 0).items 2).rowSpan
        = expandedSpan demoEnv 2 ∧
      (enterItem demoEnv demoExpandedState 2 false 0).expandedItemRef = some 2) :=
  ⟨⟨rfl, rfl, by decide⟩,
    c7_enter_collapses_previous demoEnv demoExpandedState 2 0 false 0 rfl rfl (by decide)⟩

/-! ## C9: the deferred collapse never happens -/

/-- C9: pointer leaves item 0 while the forward-scroll lock is engaged
for it; the collapse is deferred.  When the lock releases with the
pointer still outside, `waitForUnlock` dispatches a synthetic
'collapse' event for which no listener exists
(`dispatchCollapseEvent` is the identity), so — contrary to the claim
and to the source's own `// proceed to collapse below` comment — item 0
keeps its expanded flag, full-row column span and expanded styling. -/
theorem c9_deferred_collapse_never_fires :
    (runHover demoEnv (initHover demoEnv 0)
      [HoverEv.enter 0 true 100, HoverEv.leave 0 none,
        HoverEv.unlock (some 0) false]).isForwardScroll = false ∧
    ((runHover demoEnv (initHover demoEnv 0)
      [HoverEv.enter 0 true 100, HoverEv.leave 0 none,
        HoverEv.unlock (some 0) false]).items 0).expandedClass = true ∧
    ((runHover demoEnv (initHover demoEnv 0)
      [HoverEv.enter 0 true 100, HoverEv.leave 0 none,
        HoverEv.unlock (some 0) false]).items 0).gridColumnFull = true ∧
    (runHover demoEnv (initHover demoEnv 0)
      [HoverEv.enter 0 true 100, HoverEv.leave 0 none,
        HoverEv.unlock (some 0) false]).expandedItemRef = some 0 ∧
    (∀ s : HoverState, ∀ t : ℕ, dispatchCollapseEvent s t = s) :=
  ⟨rfl, rfl, rfl, rfl, fun _ _ => rfl⟩

/-! ## Slug lemmas -/

theorem length_dropWhile_le (p : Char → Bool) (l : List Char) :
    (l.dropWhile p).length ≤ l.length := by
  rw [List.dropWhile_eq_drop_findIdx_not, List.length_drop]
  omega

theorem isSlugChar_not_hyphen {c : Char} (h : isSlugChar c = true) : c ≠ '-' := by
  intro he
  rw [he] at h
  exact absurd h (by decide)

theorem collapseRuns_mem :
    ∀ l : List Char, ∀ c ∈ collapseRuns l, isSlugChar c = true ∨ c = '-' := by
  have H : ∀ n : ℕ, ∀ l : List Char, l.length ≤ n →
      ∀ c ∈ collapseRuns l, isSlugChar c = true ∨ c = '-' := by
    intro n
    induction n with
    | zero =>
        intro l hl c hc
        rw [List.length_eq_zero.mp (Nat.le_zero.mp hl)] at hc
        simp [collapseRuns] at hc
    | succ n ih =>
        intro l hl c hc
        match l with
        | [] => simp [collapseRuns] at hc
        | x :: xs =>
            rw [collapseRuns] at hc
            by_cases hx : isSlugChar x = true
            · rw [if_pos hx] at hc
              rcases List.mem_cons.mp hc with rfl | hmem
              · exact Or.inl hx
              · exact ih xs (by simp at hl; omega) c hmem
            · rw [if_neg hx] at hc
              rcases List.mem_cons.mp hc with rfl | hmem
              · exact Or.inr rfl
              · refine ih _ ?_ c hmem
                have := length_dropWhile_le (fun d => !isSlugChar d) xs
                simp at hl
                omega
  intro l
  exact H l.length l (le_refl _)

theorem noDoubleHyphen_cons_left {a : Char} {t : List Char} (ha : a ≠ '-')
    (h2 : noDoubleHyphen t = true) : noDoubleHyphen (a :: t) = true := by
  cases t with
  | nil => rfl
  | cons b bs =>
      show (!(a == '-' && b == '-') && noDoubleHyphen (b :: bs)) = true
      simp [h2, ha]

theorem noDoubleHyphen_cons_right {a : Char} {t : List Char}
    (hb : ∀ b, t.head? = some b → b ≠ '-')
    (h2 : noDoubleHyphen t = true) : noDoubleHyphen (a :: t) = true := by
  cases t with
  | nil => rfl
  | cons b bs =>
      show (!(a == '-' && b == '-') && noDoubleHyphen (b :: bs)) = true
      simp [h2, hb b rfl]

theorem noDoubleHyphen_tail {a : Char} {t : List Char}
    (h : noDoubleHyphen (a :: t) = true) : noDoubleHyphen t = true := by
  cases t with
  | nil => rfl
  | cons b bs =>
      have h1 : (!(a == '-' && b == '-') && noDoubleHyphen (b :: bs)) = true := h
      simp only [Bool.and_eq_true] at h1
      exact h1.2

theorem noDoubleHyphen_pair {a b : Char} {t : List Char}
    (h : noDoubleHyphen (a :: b :: t) = true) (ha : a = '-') : b ≠ '-' := by
  intro hb
  subst ha
  subst hb
  have h1 : (!(('-' : Char) == '-' && ('-' : Char) == '-')
      && noDoubleHyphen ('-' :: t)) = true := h
  simp at h1

theorem collapseRuns_dropWhile_head (l : List Char) :
    ∀ c, (collapseRuns (l.dropWhile (fun d => !isSlugChar d))).head? = some c →
      isSlugChar c = true := by
  induction l with
  | nil =>
      intro c hc
      simp [List.dropWhile, collapseRuns] at hc
  | cons x xs ih =>
      intro c hc
      rw [List.dropWhile_cons] at hc
      by_cases hx : isSlugChar x = true
      · rw [if_neg (by simp [hx])] at hc
        rw [collapseRuns, if_pos hx] at hc
        simp at hc
        rw [← hc]
        exact hx
      · rw [if_pos (by simp [hx])] at hc
        exact ih c hc

theorem collapseRuns_noDouble (l : List Char) :
    noDoubleHyphen (collapseRuns l) = true := by
  have H : ∀ n : ℕ, ∀ l : List Char, l.length ≤ n →
      noDoubleHyphen (collapseRuns l) = true := by
    intro n
    induction n with
    | zero =>
        intro l hl
        rw [List.length_eq_zero.mp (Nat.le_zero.mp hl)]
        simp [collapseRuns, noDoubleHyphen]
    | succ n ih =>
        intro l hl
        match l with
        | [] => simp [collapseRuns, noDoubleHyphen]
        | x :: xs =>
            rw [collapseRuns]
            by_cases hx : isSlugChar x = true
            · rw [if_pos hx]
              exact noDoubleHyphen_cons_left (isSlugChar_not_hyphen hx)
                (ih xs (by simp at hl; omega))
            · rw [if_neg hx]
              refine noDoubleHyphen_cons_right
                (fun b hb => isSlugChar_not_hyphen (collapseRuns_dropWhile_head xs b hb)) ?_
              refine ih _ ?_
              have := length_dropWhile_le (fun d => !isSlugChar d) xs
              simp at hl
              omega
  exact H l.length l (le_refl _)

theorem stripLeadingHyphen_cons_pos {a : Char} {rest : List Char} (ha : a = '-') :
    stripLeadingHyphen (a :: rest) = rest := by
  simp [stripLeadingHyphen, ha]

theorem stripLeadingHyphen_cons_neg {a : Char} {rest : List Char} (ha : ¬a = '-') :
    stripLeadingHyphen (a :: rest) = a :: rest := by
  simp [stripLeadingHyphen, ha]

theorem mem_stripLeadingHyphen {c : Char} {l : List Char}
    (h : c ∈ stripLeadingHyphen l) : c ∈ l := by
  cases l with
  | nil => exact h
  | cons a rest =>
      by_cases ha : a = '-'
      · rw [stripLeadingHyphen_cons_pos ha] at h
        exact List.mem_cons_of_mem a h
      · rwa [stripLeadingHyphen_cons_neg ha] at h

theorem mem_stripTrailingHyphen {c : Char} :
    ∀ {l : List Char}, c ∈ stripTrailingHyphen l → c ∈ l := by
  intro l
  induction l with
  | nil => exact fun h => h
  | cons a t ih =>
      intro h
      cases t with
      | nil =>
          unfold stripTrailingHyphen at h
          split at h
          · exact absurd h (List.not_mem_nil c)
          · exact h
      | cons b bs =>
          rw [show stripTrailingHyphen (a :: b :: bs)
            = a :: stripTrailingHyphen (b :: bs) from rfl] at h
          rcases List.mem_cons.mp h with rfl | hmem
          · exact List.mem_cons_self _ _
          · exact List.mem_cons_of_mem a (ih hmem)

theorem head_stripTrailingHyphen {c : Char} :
    ∀ {l : List Char}, (stripTrailingHyphen l).head? = some c → l.head? = some c := by
  intro l
  match l with
  | [] => intro h; exact absurd h (by simp [stripTrailingHyphen])
  | [a] =>
      intro h
      unfold stripTrailingHyphen at h
      split at h
      · exact absurd h (by simp)
      · exact h
  | a :: b :: bs =>
      intro h
      exact h

theorem head_stripLeadingHyphen_ne {l : List Char}
    (hnd : noDoubleHyphen l = true) :
    ∀ c, (stripLeadingHyphen l).head? = some c → c ≠ '-' := by
  intro c hc
  cases l with
  | nil => exact absurd hc (by simp [stripLeadingHyphen])
  | cons a rest =>
      by_cases ha : a = '-'
      · rw [stripLeadingHyphen_cons_pos ha] at hc
        cases rest with
        | nil => exact absurd hc (by simp)
        | cons b bs =>
            simp at hc
            rw [← hc]
            exact noDoubleHyphen_pair hnd ha
      · rw [stripLeadingHyphen_cons_neg ha] at hc
        simp at hc
        rw [← hc]
        exact ha

theorem noDoubleHyphen_stripLeadingHyphen {l : List Char}
    (h : noDoubleHyphen l = true) :
    noDoubleHyphen (stripLeadingHyphen l) = true := by
  cases l with
  | nil => exact h
  | cons a rest =>
      by_cases ha : a = '-'
      · rw [stripLeadingHyphen_cons_pos ha]
        exact noDoubleHyphen_tail h
      · rwa [stripLeadingHyphen_cons_neg ha]

theorem head_stripTrailingHyphen_of_head {l : List Char} {c : Char}
    (h : (stripTrailingHyphen l).head? = some c) : l.head? = some c :=
  head_stripTrailingHyphen h

theorem noDoubleHyphen_stripTrailingHyphen :
    ∀ {l : List Char}, noDoubleHyphen l = true →
      noDoubleHyphen (stripTrailingHyphen l) = true := by
  intro l
  induction l with
  | nil => exact fun _ => rfl
  | cons a t ih =>
      intro h
      cases t with
      | nil =>
          unfold stripTrailingHyphen
          split <;> rfl
      | cons b bs =>
          rw [show stripTrailingHyphen (a :: b :: bs)
            = a :: stripTrailingHyphen (b :: bs) from rfl]
          have ht := ih (noDoubleHyphen_tail h)
          by_cases ha : a = '-'
          · refine noDoubleHyphen_cons_right ?_ ht
            intro d hd
            have := head_stripTrailingHyphen_of_head hd
            simp at this
            rw [← this]
            exact noDoubleHyphen_pair h ha
          · exact noDoubleHyphen_cons_left ha ht

theorem getLast_stripTrailingHyphen_ne :
    ∀ {l : List Char}, noDoubleHyphen l = true →
      ∀ c, (stripTrailingHyphen l).getLast? = some c → c ≠ '-' := by
  intro l
  induction l with
  | nil => intro _ c hc; exact absurd hc (by simp [stripTrailingHyphen])
  | cons a t ih =>
      intro h c hc
      cases t with
      | nil =>
          unfold stripTrailingHyphen at hc
          split at hc
          · exact absurd hc (by simp)
          · rename_i ha
            simp at hc
            rw [← hc]
            exact ha
      | cons b bs =>
          rw [show stripTrailingHyphen (a :: b :: bs)
            = a :: stripTrailingHyphen (b :: bs) from rfl] at hc
          cases hT : stripTrailingHyphen (b :: bs) with
          | nil =>
              rw [hT] at hc
              simp at hc
              rw [← hc]
              have hb : b = '-' ∧ bs = [] := by
                cases bs with
                | nil =>
                    unfold stripTrailingHyphen at hT
                    split at hT
                    · rename_i hb; exact ⟨hb, rfl⟩
                    · exact absurd hT (by simp)
                | cons d ds =>
                    exact absurd hT (by
                      rw [show stripTrailingHyphen (b :: d :: ds)
                        = b :: stripTrailingHyphen (d :: ds) from rfl]
                      simp)
              intro ha
              have := noDoubleHyphen_pair h ha
              exact this hb.1
          | cons d ds =>
              rw [hT] at hc
              rw [List.getLast?_cons_cons] at hc
              rw [← hT] at hc
              exact ih (noDoubleHyphen_tail h) c hc

/-! ## C10: slug generation -/

/-- C10: for every title, `createSlug` yields a string of lowercase
ASCII alphanumerics and hyphens with no leading hyphen, no trailing
hyphen and no two consecutive hyphens (it may be empty), and it is
deterministic: equal titles give equal slugs. -/
theorem c10_createSlug_shape (title : List Char) :
    (∀ c ∈ createSlug title, isSlugChar c = true ∨ c = '-') ∧
    (createSlug title).head? ≠ some '-' ∧
    (createSlug title).getLast? ≠ some '-' ∧
    noDoubleHyphen (createSlug title) = true ∧
    (∀ t : List Char, title = t → createSlug title = createSlug t) := by
  have hmem := collapseRuns_mem (title.map Char.toLower)
  have hnd := collapseRuns_noDouble (title.map Char.toLower)
  have hndL := noDoubleHyphen_stripLeadingHyphen hnd
  refine ⟨?_, ?_, ?_, ?_, ?_⟩
  · intro c hc
    exact hmem c (mem_stripLeadingHyphen (mem_stripTrailingHyphen hc))
  · intro hbad
    exact head_stripLeadingHyphen_ne hnd '-' (head_stripTrailingHyphen hbad) rfl
  · intro hbad
    exact getLast_stripTrailingHyphen_ne hndL '-' hbad rfl
  · exact noDoubleHyphen_stripTrailingHyphen hndL
  · intro t ht
    rw [ht]

/-- C5: at the reachable mount state where the document is exactly as
tall as the viewport (`documentHeight - viewportHeight = 0`) and
`scrollY = 0`, `handleScroll` computes `0 / 0 = NaN`, and NaN passes
through `Math.max`/`Math.min` unchanged, so the stored progress is NaN
rather than the claimed guarded `0`. -/
theorem c5_progress_nan_unguarded :
    handleScroll 0 0 = JsNum.nan ∧ JsNum.nan ≠ JsNum.num 0 := by
  constructor
  · simp [handleScroll, jsDiv, jsMax, jsMin]
  · simp

end WebsiteAndi
